import Mathlib

/-!
Shallow embedding of the Bill Management System (Python sources:
db.py, invoice.py, gui.py, main.py).

The SQLite store is modelled as lists of rows plus autoincrement
counters; each table carries a created-flag so that
CREATE TABLE IF NOT EXISTS can be expressed.  Monetary amounts
(REAL in the schema, Python floats computed by exact arithmetic on
catalog prices) are modelled as rationals; quantities as naturals.
-/

/-- A row of the `bills` table: (id, customer, date, total). -/
structure BillRow where
  id : Nat
  customer : String
  date : String
  total : ℚ
deriving DecidableEq, Repr

/-- A row of the `bill_items` table:
(id, bill_id, product, price, quantity). -/
structure BillItemRow where
  id : Nat
  bill_id : Nat
  product : String
  price : ℚ
  quantity : Nat
deriving DecidableEq, Repr

/-- The SQLite database state: the two tables (rows plus a flag
recording whether `CREATE TABLE` has happened) and the AUTOINCREMENT
counters that assign fresh primary keys. -/
structure Store where
  bills_created : Bool
  bill_items_created : Bool
  bills : List BillRow
  bill_items : List BillItemRow
  nextBillId : Nat
  nextItemId : Nat
deriving DecidableEq, Repr

/-- A cart line / fetched item tuple: (product, price, quantity). -/
abbrev CartLine := String × ℚ × Nat

/-- SQL `CREATE TABLE IF NOT EXISTS bills (...)`: a no-op when the table
exists, otherwise creates it empty with its id sequence at 1. -/
def sqlCreateBills (s : Store) : Store :=
  if s.bills_created then s
  else { s with bills_created := true, bills := [], nextBillId := 1 }

/-- SQL `CREATE TABLE IF NOT EXISTS bill_items (...)`. -/
def sqlCreateBillItems (s : Store) : Store :=
  if s.bill_items_created then s
  else { s with bill_items_created := true, bill_items := [], nextItemId := 1 }

/-- db.init_db: create both tables if absent, commit. -/
def init_db (s : Store) : Store :=
  sqlCreateBillItems (sqlCreateBills s)

/-- One `INSERT INTO bills (customer, date, total) VALUES (?, ?, ?)`:
the fresh AUTOINCREMENT id is assigned and becomes `cur.lastrowid`. -/
def insertBillRow (customer date : String) (total : ℚ) (s : Store) : Store :=
  { s with
    bills := s.bills ++ [⟨s.nextBillId, customer, date, total⟩],
    nextBillId := s.nextBillId + 1 }

/-- One `INSERT INTO bill_items (bill_id, product, price, quantity)
VALUES (?, ?, ?, ?)`. -/
def insertItemRow (bid : Nat) (product : String) (price : ℚ) (quantity : Nat)
    (s : Store) : Store :=
  { s with
    bill_items := s.bill_items ++ [⟨s.nextItemId, bid, product, price, quantity⟩],
    nextItemId := s.nextItemId + 1 }

/-- The SQL statements executed by db.add_bill, in order: the bill
insert, then one item insert per cart line, each using
`cur.lastrowid` of the bill insert (which equals `s.nextBillId`)
as the foreign key. -/
def add_billSteps (customer date : String) (total : ℚ) (items : List CartLine)
    (s : Store) : List (Store → Store) :=
  insertBillRow customer date total ::
    items.map (fun line => insertItemRow s.nextBillId line.1 line.2.1 line.2.2)

/-- Run pending statements of one transaction.  `failAt = some k`
means the k-th remaining statement raises: `conn.commit()` is never
reached, so the connection's implicit transaction is rolled back and
the committed state stays `orig`.  With no failure the loop falls
through to `conn.commit()`, publishing the pending state. -/
def runTx (orig : Store) : Store → List (Store → Store) → Option Nat → Store
  | pending, [], _ => pending
  | _, _ :: _, some 0 => orig
  | pending, f :: rest, some (k + 1) => runTx orig (f pending) rest (some k)
  | pending, f :: rest, none => runTx orig (f pending) rest none

/-- db.add_bill on the success path: inserts the bill row and all item
rows in one connection and returns the new bill's id (`cur.lastrowid`).
An INSERT into a table that was never created raises `no such table`. -/
def add_bill (customer date : String) (total : ℚ) (items : List CartLine)
    (s : Store) : Except String (Nat × Store) :=
  if s.bills_created && s.bill_items_created then
    .ok (s.nextBillId,
      (add_billSteps customer date total items s).foldl (fun p f => f p) s)
  else .error "no such table"

/-- db.add_bill when the call may die partway: the same statement list
run under `runTx` with an optional failure point. -/
def add_billWithFailure (customer date : String) (total : ℚ)
    (items : List CartLine) (s : Store) (failAt : Option Nat) : Store :=
  runTx s s (add_billSteps customer date total items s) failAt

/-- The ORDER BY id DESC ordering of `fetch_bills`. -/
def billDescOrder (a b : BillRow) : Prop := b.id ≤ a.id

instance : DecidableRel billDescOrder :=
  fun a b => inferInstanceAs (Decidable (b.id ≤ a.id))

instance : IsTotal BillRow billDescOrder :=
  ⟨fun a b => Nat.le_total b.id a.id⟩

instance : IsTrans BillRow billDescOrder :=
  ⟨fun _ _ _ h1 h2 => Nat.le_trans h2 h1⟩

/-- db.fetch_bills:
`SELECT id, customer, date, total FROM bills ORDER BY id DESC`. -/
def fetch_bills (s : Store) : List BillRow :=
  List.insertionSort billDescOrder s.bills

/-- db.fetch_bill_items:
`SELECT product, price, quantity FROM bill_items WHERE bill_id = ?`. -/
def fetch_bill_items (bill_id : Nat) (s : Store) : List CartLine :=
  (s.bill_items.filter (fun r => r.bill_id = bill_id)).map
    (fun r => (r.product, r.price, r.quantity))

/-! ## invoice.py -/

/-- One drawing command issued to the reportlab canvas. -/
inductive PdfCmd where
  | setFont (font : String) (size : Nat)
  | text (x y : ℚ) (content : String)
  | showPage
deriving DecidableEq, Repr

/-- A4 page width in points, `reportlab.lib.pagesizes.A4` (exact
rational value of 210mm at 72dpi). -/
def pageWidth : ℚ := 75600 / 127

/-- A4 page height in points (297mm at 72dpi). -/
def pageHeight : ℚ := 106920 / 127

/-- Two-decimal money formatting, modelling the Python `f"{x:.2f}"`
on the exact decimal amounts the app produces. -/
def fmt2 (q : ℚ) : String :=
  let cents : Int := round (q * 100)
  let frac : Nat := (cents % 100).natAbs
  toString (cents / 100) ++ "." ++
    (if frac < 10 then "0" ++ toString frac else toString frac)

/-- The four `drawString` calls for one table row of the invoice. -/
def drawItemRow (product : String) (price : ℚ) (quantity : Nat) (y : ℚ) :
    List PdfCmd :=
  [PdfCmd.text 50 y product,
   PdfCmd.text 300 y ("$" ++ fmt2 price),
   PdfCmd.text 400 y (toString quantity),
   PdfCmd.text 500 y ("$" ++ fmt2 (price * quantity))]

/-- The item loop of generate_invoice: draw a row at the current `y`,
move down 20 points, and when `y` drops below 100 emit `showPage` and
restart at `height - 50`.  Returns the commands and the final `y`. -/
def drawItems : ℚ → List CartLine → List PdfCmd × ℚ
  | y, [] => ([], y)
  | y, line :: rest =>
      let y1 := y - 20
      if y1 < 100 then
        let res := drawItems (pageHeight - 50) rest
        (drawItemRow line.1 line.2.1 line.2.2 y ++ (PdfCmd.showPage :: res.1),
         res.2)
      else
        let res := drawItems y1 rest
        (drawItemRow line.1 line.2.1 line.2.2 y ++ res.1, res.2)

/-- The fixed header of generate_invoice: title, bill fields and the
table column captions. -/
def headerCmds (bill_id : Nat) (customer date : String) : List PdfCmd :=
  [PdfCmd.setFont "Helvetica-Bold" 16,
   PdfCmd.text 180 (pageHeight - 50) "Tech & Electronics Invoice",
   PdfCmd.setFont "Helvetica" 12,
   PdfCmd.text 50 (pageHeight - 100) ("Bill ID: " ++ toString bill_id),
   PdfCmd.text 50 (pageHeight - 120) ("Customer: " ++ customer),
   PdfCmd.text 50 (pageHeight - 140) ("Date: " ++ date),
   PdfCmd.text 50 (pageHeight - 180) "Product",
   PdfCmd.text 300 (pageHeight - 180) "Price",
   PdfCmd.text 400 (pageHeight - 180) "Quantity",
   PdfCmd.text 500 (pageHeight - 180) "Subtotal"]

/-- The grand-total block drawn after the item loop, 30 points below
the final `y`. -/
def grandTotalCmds (total : ℚ) (y : ℚ) : List PdfCmd :=
  [PdfCmd.setFont "Helvetica-Bold" 12,
   PdfCmd.text 50 (y - 30) ("Grand Total: $" ++ fmt2 total)]

/-- The full command stream of one generated invoice document. -/
def invoiceDoc (bill_id : Nat) (customer date : String) (total : ℚ)
    (items : List CartLine) : List PdfCmd :=
  let body := drawItems (pageHeight - 200) items
  headerCmds bill_id customer date ++ body.1 ++ grandTotalCmds total body.2

/-- The output path `os.path.join("invoices", f"invoice_{bill_id}.pdf")`. -/
def invoiceFilename (bill_id : Nat) : String :=
  "invoices/invoice_" ++ toString bill_id ++ ".pdf"

/-- The invoices directory as a map from path to document content. -/
abbrev FS := List (String × List PdfCmd)

/-- Writing a file: overwrite in place when the path exists, else
append a new entry. -/
def fsWrite (fs : FS) (path : String) (doc : List PdfCmd) : FS :=
  if fs.any (fun e => e.1 = path) then
    fs.map (fun e => if e.1 = path then (path, doc) else e)
  else fs ++ [(path, doc)]

/-- invoice.generate_invoice: renders the document, saves it under the
deterministic filename and returns that filename. -/
def generate_invoice (bill_id : Nat) (customer date : String) (total : ℚ)
    (items : List CartLine) (fs : FS) : FS × String :=
  (fsWrite fs (invoiceFilename bill_id)
      (invoiceDoc bill_id customer date total items),
   invoiceFilename bill_id)

/-! ## gui.py -/

/-- The mutable widget / application state that the handlers read and
write: the entry fields, the in-memory cart and the selected bill. -/
structure AppState where
  customer_entry : String
  product_var : String
  qty_entry : String
  cart : List CartLine
  selected_bill : Option (Nat × String × String × ℚ)
deriving DecidableEq, Repr

/-- The fixed product catalog of the readonly dropdown. -/
def productCatalog : List String :=
  ["Laptop - 800.00", "Smartphone - 500.00", "Tablet - 300.00",
   "Headphones - 100.00", "Smartwatch - 150.00", "Gaming Console - 600.00",
   "4K Monitor - 400.00", "Mechanical Keyboard - 120.00",
   "Wireless Mouse - 40.00", "External Hard Drive - 120.00"]

/-- Python `str.strip()` at the ASCII level: drop leading and trailing
whitespace characters. -/
def pyStrip (s : String) : String :=
  ⟨((s.data.dropWhile Char.isWhitespace).reverse.dropWhile
      Char.isWhitespace).reverse⟩

/-- Whether `pat` is an initial segment of `l`. -/
def startsWithChars : List Char → List Char → Bool
  | [], _ => true
  | _ :: _, [] => false
  | p :: ps, c :: cs => p = c && startsWithChars ps cs

/-- Worker for `pySplit`: scan left to right, cutting at each
non-overlapping occurrence of the (nonempty) separator.  `fuel` only
bounds the recursion; `l.length + 1` is always enough. -/
def splitOnAux (sep : List Char) : Nat → List Char → List Char → List String
  | 0, cur, _ => [⟨cur.reverse⟩]
  | _ + 1, cur, [] => [⟨cur.reverse⟩]
  | fuel + 1, cur, c :: cs =>
      if startsWithChars sep (c :: cs) then
        String.mk cur.reverse ::
          splitOnAux sep fuel [] ((c :: cs).drop sep.length)
      else splitOnAux sep fuel (c :: cur) cs

/-- Python `str.split(sep)` for a nonempty separator. -/
def pySplit (s sep : String) : List String :=
  splitOnAux sep.data (s.data.length + 1) [] s.data

/-- Python `str.isdigit` restricted to ASCII: nonempty and all
characters decimal digits. -/
def pyIsDigit (s : String) : Bool :=
  !s.data.isEmpty && s.data.all Char.isDigit

/-- Python `int(...)` on a digit string. -/
def natOfDigits (s : String) : Nat :=
  s.data.foldl (fun n c => n * 10 + (c.toNat - 48)) 0

/-- Python `float(...)` on the catalog's `digits.digits` price strings. -/
def parsePrice (s : String) : Option ℚ :=
  match pySplit s "." with
  | [w, f] =>
      if !w.data.isEmpty && !f.data.isEmpty && w.data.all Char.isDigit &&
          f.data.all Char.isDigit
      then some (mkRat (natOfDigits w * 10 ^ f.data.length + natOfDigits f)
                   (10 ^ f.data.length))
      else none
  | _ => none

/-- Python `name, price_str = product_text.split(" - ")` then
`price = float(price_str)`:
fails (ValueError) unless the split has exactly two parts and the
second parses as a price. -/
def parseProduct (s : String) : Option (String × ℚ) :=
  match pySplit s " - " with
  | [name, priceStr] => (parsePrice priceStr).map (fun p => (name, p))
  | _ => none

/-- Outcome of BillApp.add_to_cart. -/
inductive AddResult where
  | added
  | errNoProduct
  | errBadQty
  | errParse
deriving DecidableEq, Repr

/-- BillApp.add_to_cart: validate the quantity field, parse the
selected product, append the line to the cart and reset the quantity
entry to "1"; on any validation error show a message and change
nothing. -/
def add_to_cart (st : AppState) : AppState × AddResult :=
  if st.product_var = "" then (st, .errNoProduct)
  else if !pyIsDigit st.qty_entry || natOfDigits st.qty_entry ≤ 0 then
    (st, .errBadQty)
  else
    match parseProduct st.product_var with
    | none => (st, .errParse)
    | some np =>
        ({ st with
            cart := st.cart ++ [(np.1, np.2, natOfDigits st.qty_entry)],
            qty_entry := "1" },
         .added)

/-- Outcome of BillApp.save_bill. -/
inductive SaveResult where
  | saved (bill_id : Nat)
  | errNoCustomer
  | errEmptyCart
  | errDb (msg : String)
deriving DecidableEq, Repr

/-- Python `sum(price * qty for _, price, qty in self.cart)`. -/
def cartTotal (cart : List CartLine) : ℚ :=
  (cart.map (fun line => line.2.1 * (line.2.2 : ℚ))).sum

/-- BillApp.save_bill: reject an empty (trimmed) customer name or an
empty cart without touching anything; otherwise write the bill through
add_bill, record it as selected, and clear cart and name field.  `now`
is the formatted current timestamp. -/
def save_bill (st : AppState) (now : String) (s : Store) :
    AppState × Store × SaveResult :=
  let customer := pyStrip st.customer_entry
  if customer = "" then (st, s, .errNoCustomer)
  else if st.cart = [] then (st, s, .errEmptyCart)
  else
    let total := cartTotal st.cart
    match add_bill customer now total st.cart s with
    | .error e => (st, s, .errDb e)
    | .ok res =>
        ({ st with
            cart := [],
            customer_entry := "",
            selected_bill := some (res.1, customer, now, total) },
         res.2,
         .saved res.1)

/-- Outcome of the two export handlers. -/
inductive ExportResult where
  | exported (path : String)
  | errNoBills
deriving DecidableEq, Repr

/-- The bill a handler exports: the selected bill if any, else the
first row of fetch_bills, else failure. -/
def exportTarget (st : AppState) (s : Store) :
    Option (Nat × String × String × ℚ) :=
  match st.selected_bill with
  | some b => some b
  | none =>
      match fetch_bills s with
      | [] => none
      | r :: _ => some (r.id, r.customer, r.date, r.total)

/-- BillApp.export_invoice: generate the PDF for the target bill, or
show an error (writing nothing) when there is no bill at all. -/
def export_invoice (st : AppState) (s : Store) (fs : FS) : FS × ExportResult :=
  match exportTarget st s with
  | none => (fs, .errNoBills)
  | some b =>
      let res := generate_invoice b.1 b.2.1 b.2.2.1 b.2.2.2
        (fetch_bill_items b.1 s) fs
      (res.1, .exported res.2)

/-- BillApp.open_invoice_external up to the viewer launch: pick the
same target bill, generate the file only when it is missing, then open
it. -/
def open_invoice_external (st : AppState) (s : Store) (fs : FS) :
    FS × ExportResult :=
  match exportTarget st s with
  | none => (fs, .errNoBills)
  | some b =>
      let path := invoiceFilename b.1
      if fs.any (fun e => e.1 = path) then (fs, .exported path)
      else
        let res := generate_invoice b.1 b.2.1 b.2.2.1 b.2.2.2
          (fetch_bill_items b.1 s) fs
        (res.1, .exported path)

/-! ## The persistence API as a call language (for the append-only
claim). -/

/-- One call of the db.py API. -/
inductive ApiCall where
  | initDb
  | addBill (customer date : String) (total : ℚ) (items : List CartLine)
  | fetchBills
  | fetchBillItems (bill_id : Nat)
deriving Repr

/-- The store transition of one API call (reads leave the store as it
was; a failed add_bill commits nothing). -/
def applyCall (c : ApiCall) (s : Store) : Store :=
  match c with
  | .initDb => init_db s
  | .addBill customer date total items =>
      match add_bill customer date total items s with
      | .ok res => res.2
      | .error _ => s
  | .fetchBills => s
  | .fetchBillItems _ => s

/-- Reachable-state invariant: a table that was never created holds no
rows (SQLite cannot have rows in an absent table). -/
def TablesOk (s : Store) : Prop :=
  (s.bills_created = false → s.bills = []) ∧
    (s.bill_items_created = false → s.bill_items = [])

instance : DecidablePred TablesOk := fun s => by
  unfold TablesOk; infer_instance

/-! ## Lemmas about the persistence layer -/

/-- The item rows that one add_bill call creates for the cart `items`:
item ids counting up from `nid`, all pointing at bill `bid`. -/
def itemRows (nid bid : Nat) : List CartLine → List BillItemRow
  | [] => []
  | line :: rest =>
      ⟨nid, bid, line.1, line.2.1, line.2.2⟩ :: itemRows (nid + 1) bid rest

theorem itemRows_length (bid : Nat) (items : List CartLine) :
    ∀ nid, (itemRows nid bid items).length = items.length := by
  induction items with
  | nil => intro nid; rfl
  | cons line rest ih => intro nid; simpa [itemRows] using ih (nid + 1)

theorem itemRows_billId (bid : Nat) (items : List CartLine) :
    ∀ nid, ∀ r ∈ itemRows nid bid items, r.bill_id = bid := by
  induction items with
  | nil => intro nid r hr; simp [itemRows] at hr
  | cons line rest ih =>
      intro nid r hr
      rcases (List.mem_cons).1 hr with h | h
      · subst h; rfl
      · exact ih (nid + 1) r h

theorem itemRows_proj (bid : Nat) (items : List CartLine) :
    ∀ nid, (itemRows nid bid items).map
        (fun r => (r.product, r.price, r.quantity)) = items := by
  induction items with
  | nil => intro nid; rfl
  | cons line rest ih => intro nid; simp [itemRows, ih (nid + 1)]

/-- Folding the item-insert statements over a pending store appends
exactly the `itemRows` block. -/
theorem foldl_insertItemRow (bid : Nat) (items : List CartLine) :
    ∀ p : Store,
      (items.map (fun line => insertItemRow bid line.1 line.2.1 line.2.2)).foldl
          (fun st f => f st) p =
        { p with
            bill_items := p.bill_items ++ itemRows p.nextItemId bid items,
            nextItemId := p.nextItemId + items.length } := by
  induction items with
  | nil => intro p; simp [itemRows]
  | cons line rest ih =>
      intro p
      simp only [List.map_cons, List.foldl_cons]
      rw [ih]
      simp [insertItemRow, itemRows, Nat.add_assoc, Nat.add_comm 1]

/-- The store add_bill commits. -/
theorem add_billSteps_foldl (customer date : String) (total : ℚ)
    (items : List CartLine) (s : Store) :
    (add_billSteps customer date total items s).foldl (fun p f => f p) s =
      { s with
          bills := s.bills ++ [⟨s.nextBillId, customer, date, total⟩],
          nextBillId := s.nextBillId + 1,
          bill_items := s.bill_items ++ itemRows s.nextItemId s.nextBillId items,
          nextItemId := s.nextItemId + items.length } := by
  unfold add_billSteps
  rw [List.foldl_cons, foldl_insertItemRow]
  rfl

/-- add_bill on an initialized store succeeds and returns exactly the
appended store. -/
theorem add_bill_ok (customer date : String) (total : ℚ)
    (items : List CartLine) (s : Store) (hb : s.bills_created = true)
    (hi : s.bill_items_created = true) :
    add_bill customer date total items s =
      .ok (s.nextBillId,
        { s with
            bills := s.bills ++ [⟨s.nextBillId, customer, date, total⟩],
            nextBillId := s.nextBillId + 1,
            bill_items := s.bill_items ++ itemRows s.nextItemId s.nextBillId items,
            nextItemId := s.nextItemId + items.length }) := by
  unfold add_bill
  rw [hb, hi]
  simp only [Bool.and_self, if_true]
  rw [add_billSteps_foldl, hb, hi]

/-- Without a failure the transaction loop is the plain fold. -/
theorem runTx_none (orig : Store) (steps : List (Store → Store)) :
    ∀ p, runTx orig p steps none = steps.foldl (fun st f => f st) p := by
  induction steps with
  | nil => intro p; rfl
  | cons f rest ih => intro p; simpa [runTx] using ih (f p)

/-- A failure at any statement before the commit leaves the committed
store untouched. -/
theorem runTx_abort (orig : Store) (steps : List (Store → Store)) :
    ∀ p k, k < steps.length → runTx orig p steps (some k) = orig := by
  induction steps with
  | nil => intro p k h; simp at h
  | cons f rest ih =>
      intro p k h
      cases k with
      | zero => rfl
      | succ k2 =>
          simpa [runTx] using ih (f p) k2 (Nat.lt_of_succ_lt_succ h)

/-! ## Concrete sample states used by witnesses -/

/-- A freshly initialized empty store (both tables created). -/
def sampleStore : Store := ⟨true, true, [], [], 1, 1⟩

/-- An app state with one cart line and a customer name. -/
def sampleApp : AppState :=
  ⟨"Alice", "Laptop - 800.00", "2", [("Laptop", 800, 2)], none⟩

/-- A store holding two bills (out of id order in the table) and one
item row each. -/
def sampleStore2 : Store :=
  ⟨true, true,
   [⟨1, "Alice", "2024-01-01 10:00:00", 1600⟩,
    ⟨2, "Bob", "2024-01-02 11:00:00", 500⟩],
   [⟨1, 1, "Laptop", 800, 2⟩, ⟨2, 2, "Smartphone", 500, 1⟩],
   3, 3⟩

/-! ## Claim theorems -/

/-- C7: init_db is idempotent: running it twice equals running it
once, and on a store that already has both tables it changes
nothing (and, being a total function, it never errors). -/
theorem init_db_idempotent (s : Store) :
    init_db (init_db s) = init_db s ∧
      (s.bills_created = true → s.bill_items_created = true →
        init_db s = s) := by
  constructor
  · cases s with
    | mk bc ic b bi nb ni =>
        cases bc <;> cases ic <;>
          simp [init_db, sqlCreateBills, sqlCreateBillItems]
  · intro hb hi
    simp [init_db, sqlCreateBills, sqlCreateBillItems, hb, hi]

/-- Witness for C7 at a concrete initialized store. -/
theorem init_db_idempotent_witness :
    init_db ⟨true, true, [], [], 5, 7⟩ = ⟨true, true, [], [], 5, 7⟩ :=
  (init_db_idempotent ⟨true, true, [], [], 5, 7⟩).2 rfl rfl

/-- Strengthen a non-strict descending chain to a strict one when all
ids are distinct. -/
theorem pairwise_lt_of_ge_ne {l : List BillRow}
    (hge : l.Pairwise billDescOrder)
    (hne : l.Pairwise fun a b => a.id ≠ b.id) :
    l.Pairwise fun a b => b.id < a.id :=
  (hge.and hne).imp fun h => lt_of_le_of_ne h.1 fun e => h.2 e.symm

/-- C3: fetch_bills returns every bill row (a permutation of the
table) in strictly descending id order, most recent first, whenever
the table's primary keys are distinct. -/
theorem fetch_bills_sorted_desc (s : Store)
    (hids : s.bills.Pairwise fun a b => a.id ≠ b.id) :
    List.Perm (fetch_bills s) s.bills ∧
      (fetch_bills s).Pairwise fun a b => b.id < a.id := by
  have hperm := List.perm_insertionSort billDescOrder s.bills
  refine ⟨hperm, ?_⟩
  have hsorted := List.sorted_insertionSort billDescOrder s.bills
  have hne : (fetch_bills s).Pairwise fun a b => a.id ≠ b.id :=
    (hperm.pairwise_iff fun h e => h e.symm).mpr hids
  exact pairwise_lt_of_ge_ne hsorted hne

/-- Witness for C3 on a concrete two-bill store. -/
theorem fetch_bills_sorted_desc_witness :
    List.Perm (fetch_bills sampleStore2) sampleStore2.bills ∧
      (fetch_bills sampleStore2).Pairwise fun a b => b.id < a.id :=
  fetch_bills_sorted_desc sampleStore2 (by decide)

/-- C1: a successful save_bill (nonempty trimmed name, nonempty cart,
initialized store) appends exactly one bill row, whose total is the
sum of price times quantity over the cart, and exactly one item row
per cart line, each carrying the new bill's id. -/
theorem save_bill_persists (st : AppState) (now : String) (s : Store)
    (hname : pyStrip st.customer_entry ≠ "") (hcart : st.cart ≠ [])
    (hb : s.bills_created = true) (hi : s.bill_items_created = true) :
    ∃ newItems : List BillItemRow,
      (save_bill st now s).2.1.bills =
        s.bills ++ [⟨s.nextBillId, pyStrip st.customer_entry, now,
          (st.cart.map fun line => line.2.1 * (line.2.2 : ℚ)).sum⟩] ∧
      (save_bill st now s).2.1.bill_items = s.bill_items ++ newItems ∧
      newItems.length = st.cart.length ∧
      (∀ r ∈ newItems, r.bill_id = s.nextBillId) ∧
      newItems.map (fun r => (r.product, r.price, r.quantity)) = st.cart ∧
      (save_bill st now s).2.2 = .saved s.nextBillId := by
  refine ⟨itemRows s.nextItemId s.nextBillId st.cart, ?_⟩
  simp only [save_bill]
  rw [if_neg hname, if_neg hcart, add_bill_ok _ _ _ _ _ hb hi]
  exact ⟨rfl, rfl, itemRows_length _ _ _, itemRows_billId _ _ _,
    itemRows_proj _ _ _, rfl⟩

/-- Witness for C1: saving a one-line cart on the fresh store. -/
theorem save_bill_persists_witness :
    ∃ newItems : List BillItemRow,
      (save_bill sampleApp "2024-01-01 10:00:00" sampleStore).2.1.bills =
        sampleStore.bills ++ [⟨sampleStore.nextBillId,
          pyStrip sampleApp.customer_entry, "2024-01-01 10:00:00",
          (sampleApp.cart.map fun line => line.2.1 * (line.2.2 : ℚ)).sum⟩] ∧
      (save_bill sampleApp "2024-01-01 10:00:00" sampleStore).2.1.bill_items =
        sampleStore.bill_items ++ newItems ∧
      newItems.length = sampleApp.cart.length ∧
      (∀ r ∈ newItems, r.bill_id = sampleStore.nextBillId) ∧
      newItems.map (fun r => (r.product, r.price, r.quantity)) =
        sampleApp.cart ∧
      (save_bill sampleApp "2024-01-01 10:00:00" sampleStore).2.2 =
        .saved sampleStore.nextBillId :=
  save_bill_persists sampleApp "2024-01-01 10:00:00" sampleStore
    (by decide) (by decide) rfl rfl

/-- C2: the add_bill transaction is atomic: a failure at any statement
before the commit leaves the store exactly as it was, and the
successful run contains the bill row and one matching item row per
input line. -/
theorem add_bill_atomic (customer date : String) (total : ℚ)
    (items : List CartLine) (s : Store) :
    (∀ k, k < (add_billSteps customer date total items s).length →
        add_billWithFailure customer date total items s (some k) = s) ∧
    (⟨s.nextBillId, customer, date, total⟩ : BillRow) ∈
        (add_billWithFailure customer date total items s none).bills ∧
    ∀ line ∈ items,
      ∃ r ∈ (add_billWithFailure customer date total items s none).bill_items,
        r.bill_id = s.nextBillId ∧ (r.product, r.price, r.quantity) = line := by
  refine ⟨fun k hk => runTx_abort s _ s k hk, ?_, ?_⟩
  · unfold add_billWithFailure
    rw [runTx_none, add_billSteps_foldl]
    simp
  · intro line hline
    unfold add_billWithFailure
    rw [runTx_none, add_billSteps_foldl]
    have : line ∈ (itemRows s.nextItemId s.nextBillId items).map
        (fun r => (r.product, r.price, r.quantity)) := by
      rw [itemRows_proj]; exact hline
    rcases List.mem_map.1 this with ⟨r, hr, hproj⟩
    exact ⟨r, by simp [List.mem_append, hr],
      itemRows_billId _ _ _ r hr, hproj⟩

/-- Witness for C2: failing at the single item insert (statement 1)
keeps the fresh store empty; the complete run holds the bill row. -/
theorem add_bill_atomic_witness :
    add_billWithFailure "Alice" "2024-01-01 10:00:00" 800
        [("Laptop", 800, 1)] sampleStore (some 1) = sampleStore ∧
      (⟨sampleStore.nextBillId, "Alice", "2024-01-01 10:00:00", 800⟩ :
          BillRow) ∈
        (add_billWithFailure "Alice" "2024-01-01 10:00:00" 800
          [("Laptop", 800, 1)] sampleStore none).bills :=
  ⟨(add_bill_atomic "Alice" "2024-01-01 10:00:00" 800
      [("Laptop", 800, 1)] sampleStore).1 1 (by decide),
   (add_bill_atomic "Alice" "2024-01-01 10:00:00" 800
      [("Laptop", 800, 1)] sampleStore).2.1⟩

/-- C5: save_bill with an empty trimmed customer name or an empty cart
shows an error and mutates nothing: the app state (cart included) and
the store come back exactly as they were. -/
theorem save_bill_rejects (st : AppState) (now : String) (s : Store)
    (h : pyStrip st.customer_entry = "" ∨ st.cart = []) :
    (save_bill st now s).1 = st ∧ (save_bill st now s).2.1 = s ∧
      ((save_bill st now s).2.2 = .errNoCustomer ∨
        (save_bill st now s).2.2 = .errEmptyCart) := by
  simp only [save_bill]
  rcases h with h | h
  · rw [if_pos h]
    exact ⟨rfl, rfl, Or.inl rfl⟩
  · by_cases hn : pyStrip st.customer_entry = ""
    · rw [if_pos hn]
      exact ⟨rfl, rfl, Or.inl rfl⟩
    · rw [if_neg hn, if_pos h]
      exact ⟨rfl, rfl, Or.inr rfl⟩

/-- Witness for C5: a whitespace-only customer name is rejected with
no mutation. -/
theorem save_bill_rejects_witness :
    (save_bill ⟨"  ", "", "1", [("Laptop", 800, 1)], none⟩
        "2024-01-01 10:00:00" sampleStore).1 =
      ⟨"  ", "", "1", [("Laptop", 800, 1)], none⟩ ∧
    (save_bill ⟨"  ", "", "1", [("Laptop", 800, 1)], none⟩
        "2024-01-01 10:00:00" sampleStore).2.1 = sampleStore ∧
    ((save_bill ⟨"  ", "", "1", [("Laptop", 800, 1)], none⟩
        "2024-01-01 10:00:00" sampleStore).2.2 = .errNoCustomer ∨
      (save_bill ⟨"  ", "", "1", [("Laptop", 800, 1)], none⟩
        "2024-01-01 10:00:00" sampleStore).2.2 = .errEmptyCart) :=
  save_bill_rejects ⟨"  ", "", "1", [("Laptop", 800, 1)], none⟩
    "2024-01-01 10:00:00" sampleStore (Or.inl (by decide))

/-- C6: add_to_cart rejects a quantity entry that is not a digit
string or has value zero, leaving the whole app state (cart included)
untouched; with a positive digit-string quantity and a parseable
selected product it appends exactly that line; and every catalog
entry is nonempty and parseable. -/
theorem add_to_cart_validation (st : AppState) :
    (¬(pyIsDigit st.qty_entry = true ∧ 0 < natOfDigits st.qty_entry) →
        (add_to_cart st).1 = st ∧ (add_to_cart st).2 ≠ .added) ∧
    (∀ name price, pyIsDigit st.qty_entry = true →
        0 < natOfDigits st.qty_entry → st.product_var ≠ "" →
        parseProduct st.product_var = some (name, price) →
        (add_to_cart st).1.cart =
            st.cart ++ [(name, price, natOfDigits st.qty_entry)] ∧
          (add_to_cart st).2 = .added) ∧
    (∀ p ∈ productCatalog, p ≠ "" ∧ (parseProduct p).isSome = true) := by
  refine ⟨?_, ?_, by decide⟩
  · intro h
    simp only [add_to_cart]
    by_cases hp : st.product_var = ""
    · rw [if_pos hp]
      exact ⟨rfl, by simp⟩
    · rw [if_neg hp]
      have hcond : (!pyIsDigit st.qty_entry ||
          decide (natOfDigits st.qty_entry ≤ 0)) = true := by
        by_cases hd : pyIsDigit st.qty_entry = true
        · have hn : natOfDigits st.qty_entry = 0 := by
            rcases Decidable.not_and_iff_or_not.1 h with h1 | h1
            · exact absurd hd h1
            · exact Nat.eq_zero_of_not_pos h1
          simp [hn]
        · simp [Bool.eq_false_iff.2 hd]
      rw [if_pos hcond]
      exact ⟨rfl, by simp⟩
  · intro name price h1 h2 h3 h4
    simp only [add_to_cart]
    rw [if_neg h3]
    simp [h4, h1, Nat.pos_iff_ne_zero.1 h2]

/-- Witness for C6: quantity "0" is rejected with the state unchanged;
quantity "2" with the Laptop catalog entry appends the line. -/
theorem add_to_cart_validation_witness :
    ((add_to_cart ⟨"Alice", "Laptop - 800.00", "0", [], none⟩).1 =
        ⟨"Alice", "Laptop - 800.00", "0", [], none⟩ ∧
      (add_to_cart ⟨"Alice", "Laptop - 800.00", "0", [], none⟩).2 ≠
        .added) ∧
    ((add_to_cart sampleApp).1.cart =
        sampleApp.cart ++ [("Laptop", 800, natOfDigits sampleApp.qty_entry)] ∧
      (add_to_cart sampleApp).2 = .added) :=
  ⟨(add_to_cart_validation ⟨"Alice", "Laptop - 800.00", "0", [], none⟩).1
      (by decide),
   (add_to_cart_validation sampleApp).2.1 "Laptop" 800 (by decide) (by decide)
      (by decide) (by decide)⟩

/-! ## Filesystem lemmas for the export claims -/

/-- Read a file back from the invoices directory. -/
def fsRead (fs : FS) (path : String) : Option (List PdfCmd) :=
  (fs.find? (fun e => e.1 = path)).map (fun e => e.2)

theorem find?_overwrite (p : String) (d : List PdfCmd) :
    ∀ fs : FS, fs.any (fun e => e.1 = p) = true →
      (fs.map (fun e => if e.1 = p then (p, d) else e)).find?
          (fun e => e.1 = p) = some (p, d) := by
  intro fs
  induction fs with
  | nil => intro h; simp at h
  | cons e rest ih =>
      intro h
      by_cases he : e.1 = p
      · simp [List.find?, he]
      · have h2 : rest.any (fun e => e.1 = p) = true := by
          simpa [List.any_cons, he] using h
        simpa [List.find?, he] using ih h2

theorem find?_appendNew (p : String) (d : List PdfCmd) :
    ∀ fs : FS, fs.any (fun e => e.1 = p) = false →
      (fs ++ [(p, d)]).find? (fun e => e.1 = p) = some (p, d) := by
  intro fs
  induction fs with
  | nil => intro _; simp [List.find?]
  | cons e rest ih =>
      intro h
      have he : ¬e.1 = p := by
        intro hc
        simp [List.any_cons, hc] at h
      have h2 : rest.any (fun e => e.1 = p) = false := by
        simpa [List.any_cons, he] using h
      simpa [List.find?, he] using ih h2

/-- After a write, the written path holds exactly the written doc. -/
theorem find?_fsWrite (fs : FS) (p : String) (d : List PdfCmd) :
    (fsWrite fs p d).find? (fun e => e.1 = p) = some (p, d) := by
  unfold fsWrite
  by_cases h : fs.any (fun e => e.1 = p) = true
  · rw [if_pos h]
    exact find?_overwrite p d fs h
  · rw [if_neg h]
    exact find?_appendNew p d fs (Bool.eq_false_iff.2 h)

theorem fsRead_fsWrite (fs : FS) (p : String) (d : List PdfCmd) :
    fsRead (fsWrite fs p d) p = some d := by
  unfold fsRead
  rw [find?_fsWrite]
  rfl

/-- A write never removes a path, and writing to a present path keeps
the path list identical. -/
theorem fsWrite_keys (fs : FS) (p : String) (d : List PdfCmd) :
    (fsWrite fs p d).map (fun e => e.1) =
      if fs.any (fun e => e.1 = p) = true then fs.map (fun e => e.1)
      else fs.map (fun e => e.1) ++ [p] := by
  unfold fsWrite
  by_cases h : fs.any (fun e => e.1 = p) = true
  · rw [if_pos h, if_pos h, List.map_map]
    have hfun : ((fun e : String × List PdfCmd => e.1) ∘
        fun e => if e.1 = p then (p, d) else e) =
          fun e : String × List PdfCmd => e.1 := by
      funext e
      by_cases he : e.1 = p <;> simp [he]
    rw [hfun]
  · rw [if_neg h, if_neg h]
    simp

/-- The written path is present afterwards. -/
theorem fsWrite_any (fs : FS) (p : String) (d : List PdfCmd) :
    (fsWrite fs p d).any (fun e => e.1 = p) = true :=
  List.any_eq_true.2
    ⟨(p, d), List.mem_of_find?_eq_some (find?_fsWrite fs p d), by simp⟩

/-- C4: generate_invoice writes to `invoices/invoice_<id>.pdf`, a
function of the bill identifier alone; a second call for the same
bill returns the same path, adds no path to the store, and leaves the
second document under that path (overwriting the first). -/
theorem generate_invoice_deterministic (bid : Nat)
    (c1 d1 : String) (t1 : ℚ) (i1 : List CartLine)
    (c2 d2 : String) (t2 : ℚ) (i2 : List CartLine) (fs : FS) :
    (generate_invoice bid c1 d1 t1 i1 fs).2 = invoiceFilename bid ∧
    (generate_invoice bid c2 d2 t2 i2
        (generate_invoice bid c1 d1 t1 i1 fs).1).2 =
      (generate_invoice bid c1 d1 t1 i1 fs).2 ∧
    ((generate_invoice bid c2 d2 t2 i2
        (generate_invoice bid c1 d1 t1 i1 fs).1).1).map (fun e => e.1) =
      ((generate_invoice bid c1 d1 t1 i1 fs).1).map (fun e => e.1) ∧
    fsRead (generate_invoice bid c2 d2 t2 i2
        (generate_invoice bid c1 d1 t1 i1 fs).1).1 (invoiceFilename bid) =
      some (invoiceDoc bid c2 d2 t2 i2) := by
  refine ⟨rfl, rfl, ?_, ?_⟩
  · simp only [generate_invoice]
    rw [fsWrite_keys, if_pos (fsWrite_any _ _ _)]
  · simp only [generate_invoice]
    exact fsRead_fsWrite _ _ _

/-! ## Pagination contract (spec side) and C8 -/

/-- Specification-side pagination contract, written from the spec's
description of the rendering behaviour: exactly one table row per item
in list order, drawn at the running vertical position, which starts at
the given `y` and moves down 20 points per row; a page break occurs
exactly when the position drops below 100 after a row, resuming at
`pageHeight - 50`; and nothing else appears in the stream. -/
def pagedRender : ℚ → List CartLine → List PdfCmd → Bool
  | _, [], cmds => cmds.isEmpty
  | y, line :: rest, cmds =>
      decide (cmds.take 4 = drawItemRow line.1 line.2.1 line.2.2 y) &&
        (if y - 20 < 100 then
          match cmds.drop 4 with
          | PdfCmd.showPage :: cs => pagedRender (pageHeight - 50) rest cs
          | _ => false
        else pagedRender (y - 20) rest (cmds.drop 4))

theorem pagedRender_drawItems :
    ∀ (items : List CartLine) (y : ℚ),
      pagedRender y items (drawItems y items).1 = true := by
  intro items
  induction items with
  | nil => intro y; rfl
  | cons line rest ih =>
      intro y
      simp only [drawItems]
      by_cases hy : y - 20 < 100
      · rw [if_pos hy]
        simp only [pagedRender]
        rw [if_pos hy]
        rw [@List.take_left' PdfCmd (drawItemRow line.1 line.2.1 line.2.2 y)
            _ 4 rfl,
          @List.drop_left' PdfCmd (drawItemRow line.1 line.2.1 line.2.2 y)
            _ 4 rfl]
        simp [ih (pageHeight - 50)]
      · rw [if_neg hy]
        simp only [pagedRender]
        rw [if_neg hy]
        rw [@List.take_left' PdfCmd (drawItemRow line.1 line.2.1 line.2.2 y)
            _ 4 rfl,
          @List.drop_left' PdfCmd (drawItemRow line.1 line.2.1 line.2.2 y)
            _ 4 rfl]
        simp [ih (y - 20)]

/-- C8: the item loop of generate_invoice renders exactly one row per
item in list order with a page break exactly when the vertical
position drops below 100 after a row, and the whole document is the
header, then those rows, then the grand-total block at the final
position. -/
theorem generate_invoice_rows_and_pagination (bid : Nat)
    (customer date : String) (total : ℚ) (items : List CartLine) :
    pagedRender (pageHeight - 200) items
        (drawItems (pageHeight - 200) items).1 = true ∧
    invoiceDoc bid customer date total items =
      headerCmds bid customer date ++
        (drawItems (pageHeight - 200) items).1 ++
        grandTotalCmds total (drawItems (pageHeight - 200) items).2 :=
  ⟨pagedRender_drawItems items _, rfl⟩

/-! ## Append-only store (C9) -/

/-- Holds when `new` extends `old` without touching existing entries. -/
def RowsExtend {α : Type} (old new : List α) : Prop :=
  ∃ t, new = old ++ t

theorem rowsExtend_refl {α : Type} (l : List α) : RowsExtend l l :=
  ⟨[], by simp⟩

theorem rowsExtend_trans {α : Type} {a b c : List α} :
    RowsExtend a b → RowsExtend b c → RowsExtend a c
  | ⟨t1, h1⟩, ⟨t2, h2⟩ => ⟨t1 ++ t2, by rw [h2, h1, List.append_assoc]⟩

/-- One API call preserves the table invariant and only ever appends
to the two tables. -/
theorem applyCall_extends (c : ApiCall) (s : Store) (h : TablesOk s) :
    TablesOk (applyCall c s) ∧ RowsExtend s.bills (applyCall c s).bills ∧
      RowsExtend s.bill_items (applyCall c s).bill_items := by
  cases c with
  | initDb =>
      obtain ⟨h1, h2⟩ := h
      simp only [applyCall, init_db, sqlCreateBills, sqlCreateBillItems]
      by_cases hb : s.bills_created = true <;>
        by_cases hi : s.bill_items_created = true
      · simp [hb, hi, TablesOk, rowsExtend_refl]
      · have hbi := h2 (Bool.eq_false_iff.2 hi)
        simp [hb, hi, TablesOk, rowsExtend_refl, hbi]
      · have hbb := h1 (Bool.eq_false_iff.2 hb)
        simp [hb, hi, TablesOk, rowsExtend_refl, hbb]
      · have hbb := h1 (Bool.eq_false_iff.2 hb)
        have hbi := h2 (Bool.eq_false_iff.2 hi)
        simp [hb, hi, TablesOk, rowsExtend_refl, hbb, hbi]
  | addBill customer date total items =>
      simp only [applyCall]
      by_cases hflag : (s.bills_created && s.bill_items_created) = true
      · obtain ⟨hb, hi⟩ := Bool.and_eq_true_iff.1 hflag
        rw [add_bill_ok customer date total items s hb hi]
        refine ⟨⟨?_, ?_⟩, ⟨_, rfl⟩, ⟨_, rfl⟩⟩
        · intro hf
          rw [show ({ s with
              bills := s.bills ++ [⟨s.nextBillId, customer, date, total⟩],
              nextBillId := s.nextBillId + 1,
              bill_items := s.bill_items ++
                itemRows s.nextItemId s.nextBillId items,
              nextItemId := s.nextItemId + items.length} : Store).bills_created
              = s.bills_created from rfl] at hf
          rw [hb] at hf
          exact absurd hf (by simp)
        · intro hf
          rw [show ({ s with
              bills := s.bills ++ [⟨s.nextBillId, customer, date, total⟩],
              nextBillId := s.nextBillId + 1,
              bill_items := s.bill_items ++
                itemRows s.nextItemId s.nextBillId items,
              nextItemId := s.nextItemId + items.length} :
                Store).bill_items_created = s.bill_items_created from rfl] at hf
          rw [hi] at hf
          exact absurd hf (by simp)
      · have herr : add_bill customer date total items s =
            .error "no such table" := by
          unfold add_bill
          rw [if_neg hflag]
        rw [herr]
        exact ⟨h, rowsExtend_refl _, rowsExtend_refl _⟩
  | fetchBills => exact ⟨h, rowsExtend_refl _, rowsExtend_refl _⟩
  | fetchBillItems bid => exact ⟨h, rowsExtend_refl _, rowsExtend_refl _⟩

/-- Running a sequence of API calls, one after the other. -/
def runCalls : List ApiCall → Store → Store
  | [], s => s
  | c :: rest, s => runCalls rest (applyCall c s)

/-- C9: the persistence API is append-only: over any sequence of calls
from a reachable store, every bill row and every item row present
before is still present, unchanged and in place, afterwards (the old
table contents are a prefix of the new), and reachability is
preserved. -/
theorem api_append_only (calls : List ApiCall) :
    ∀ s : Store, TablesOk s →
      TablesOk (runCalls calls s) ∧
        RowsExtend s.bills (runCalls calls s).bills ∧
        RowsExtend s.bill_items (runCalls calls s).bill_items := by
  induction calls with
  | nil => intro s h; exact ⟨h, rowsExtend_refl _, rowsExtend_refl _⟩
  | cons c rest ih =>
      intro s h
      obtain ⟨h1, h2, h3⟩ := applyCall_extends c s h
      obtain ⟨g1, g2, g3⟩ := ih (applyCall c s) h1
      exact ⟨g1, rowsExtend_trans h2 g2, rowsExtend_trans h3 g3⟩

/-- Witness for C9 on a concrete call sequence from the empty
uninitialized store. -/
theorem api_append_only_witness :
    TablesOk (runCalls
        [ApiCall.initDb,
         ApiCall.addBill "Alice" "2024-01-01 10:00:00" 800
           [("Laptop", 800, 1)],
         ApiCall.fetchBills] ⟨false, false, [], [], 1, 1⟩) ∧
      RowsExtend (⟨false, false, [], [], 1, 1⟩ : Store).bills
        (runCalls
          [ApiCall.initDb,
           ApiCall.addBill "Alice" "2024-01-01 10:00:00" 800
             [("Laptop", 800, 1)],
           ApiCall.fetchBills] ⟨false, false, [], [], 1, 1⟩).bills ∧
      RowsExtend (⟨false, false, [], [], 1, 1⟩ : Store).bill_items
        (runCalls
          [ApiCall.initDb,
           ApiCall.addBill "Alice" "2024-01-01 10:00:00" 800
             [("Laptop", 800, 1)],
           ApiCall.fetchBills] ⟨false, false, [], [], 1, 1⟩).bill_items :=
  api_append_only _ ⟨false, false, [], [], 1, 1⟩ (by decide)

/-! ## Export target selection (C10) -/

/-- C10: with nothing selected, the export handlers fall back to the
first row of fetch_bills, which carries the greatest bill identifier;
only on an empty store do they fail, leaving the file store
untouched. -/
theorem export_defaults_to_latest (st : AppState) (s : Store) (fs : FS)
    (hsel : st.selected_bill = none) :
    (s.bills = [] →
        export_invoice st s fs = (fs, .errNoBills) ∧
          open_invoice_external st s fs = (fs, .errNoBills)) ∧
    (s.bills ≠ [] →
        ∃ r rest, fetch_bills s = r :: rest ∧
          (∀ b ∈ s.bills, b.id ≤ r.id) ∧
          (export_invoice st s fs).2 = .exported (invoiceFilename r.id) ∧
          (export_invoice st s fs).1 =
            fsWrite fs (invoiceFilename r.id)
              (invoiceDoc r.id r.customer r.date r.total
                (fetch_bill_items r.id s)) ∧
          (open_invoice_external st s fs).2 =
            .exported (invoiceFilename r.id)) := by
  have hperm := List.perm_insertionSort billDescOrder s.bills
  constructor
  · intro hemp
    have hfb : fetch_bills s = [] := by
      unfold fetch_bills
      rw [hemp]
      rfl
    constructor
    · simp [export_invoice, exportTarget, hsel, hfb]
    · simp [open_invoice_external, exportTarget, hsel, hfb]
  · intro hne
    cases hfb : fetch_bills s with
    | nil =>
        exact absurd (List.Perm.eq_nil (hfb ▸ hperm.symm)) hne
    | cons r rest =>
        have hmax : ∀ b ∈ s.bills, b.id ≤ r.id := by
          intro b hb
          have hbmem : b ∈ fetch_bills s := hperm.mem_iff.2 hb
          rw [hfb] at hbmem
          rcases List.mem_cons.1 hbmem with h | h
          · rw [h]
          · have hsorted := List.sorted_insertionSort billDescOrder s.bills
            have : List.Sorted billDescOrder (r :: rest) := by
              rw [show (r :: rest) = fetch_bills s from hfb.symm]
              exact hsorted
            exact List.rel_of_sorted_cons this b h
        refine ⟨r, rest, rfl, hmax, ?_, ?_, ?_⟩
        · simp [export_invoice, exportTarget, hsel, hfb, generate_invoice]
        · simp [export_invoice, exportTarget, hsel, hfb, generate_invoice]
        · simp only [open_invoice_external, exportTarget, hsel, hfb]
          by_cases hp : fs.any
              (fun e => e.1 = invoiceFilename r.id) = true
          · rw [if_pos hp]
          · rw [if_neg hp]
  
/-- Witness for C10 on the concrete two-bill store with no
selection. -/
theorem export_defaults_to_latest_witness :
    ∃ r rest, fetch_bills sampleStore2 = r :: rest ∧
      (∀ b ∈ sampleStore2.bills, b.id ≤ r.id) ∧
      (export_invoice ⟨"", "", "1", [], none⟩ sampleStore2 []).2 =
        .exported (invoiceFilename r.id) ∧
      (export_invoice ⟨"", "", "1", [], none⟩ sampleStore2 []).1 =
        fsWrite [] (invoiceFilename r.id)
          (invoiceDoc r.id r.customer r.date r.total
            (fetch_bill_items r.id sampleStore2)) ∧
      (open_invoice_external ⟨"", "", "1", [], none⟩ sampleStore2 []).2 =
        .exported (invoiceFilename r.id) :=
  (export_defaults_to_latest ⟨"", "", "1", [], none⟩ sampleStore2 []
    rfl).2 (by decide)
